import Mathlib

/-!
Shallow embedding of the Todoee local-first persistence and reconciliation
engine (crates/todoee-core): the entity model (`models.rs`), the local SQLite
store (`db/local.rs`), the remote store (`db/remote.rs`) and the sync
reconciler (`sync.rs`).

Modelling conventions:
* timestamps (`DateTime<Utc>` stored as RFC3339 text) are `Int`; the stored
  text ordering coincides with chronological ordering, so `ORDER BY`/`<`
  comparisons on timestamps become `Int` comparisons;
* UUIDs are `Nat`;
* a SQL table is a `List` of rows; a `PRIMARY KEY` table has `Nodup` ids;
* the opaque JSON metadata blob is an `Option String`;
* `Utc::now()` becomes an explicit `now : Int` argument;
* fallible remote I/O in the push loop is modelled by an oracle
  `fails : Todo → Bool` saying which upserts the network rejects.
-/

namespace Todoee

/-- Task priority (`Priority` in models.rs), stored as INTEGER 1/2/3. -/
inductive Priority where
  | low
  | medium
  | high
deriving DecidableEq, Repr

/-- `Priority::from_i32`: `1 => Low, 3 => High, _ => Medium`. -/
def Priority.fromI32 (value : Int) : Priority :=
  if value = 1 then Priority.low
  else if value = 3 then Priority.high
  else Priority.medium

/-- The INTEGER value bound for a priority (`priority_val` in local.rs / remote.rs). -/
def Priority.toI32 : Priority → Int
  | Priority.low => 1
  | Priority.medium => 2
  | Priority.high => 3

/-- Per-entity sync-state tag (`SyncStatus` in models.rs). -/
inductive SyncStatus where
  | pending
  | synced
  | conflict
deriving DecidableEq, Repr

/-- Decoding of the stored `sync_status` TEXT column
(`TryFrom<TodoRow> for Todo` in local.rs):
`"synced" => Synced, "conflict" => Conflict, _ => Pending`. -/
def SyncStatus.fromString (s : String) : SyncStatus :=
  if s = "synced" then SyncStatus.synced
  else if s = "conflict" then SyncStatus.conflict
  else SyncStatus.pending

/-- The `Todo` entity (models.rs). -/
structure Todo where
  id : Nat
  userId : Option Nat
  categoryId : Option Nat
  title : String
  description : Option String
  dueDate : Option Int
  reminderAt : Option Int
  priority : Priority
  isCompleted : Bool
  completedAt : Option Int
  aiMetadata : Option String
  createdAt : Int
  updatedAt : Int
  syncStatus : SyncStatus
deriving DecidableEq, Repr

/-- `Todo::new` (models.rs); the fresh UUID and `Utc::now()` are passed in. -/
def Todo.new (title : String) (userId : Option Nat) (id : Nat) (now : Int) : Todo :=
  { id := id
    userId := userId
    categoryId := none
    title := title
    description := none
    dueDate := none
    reminderAt := none
    priority := Priority.medium
    isCompleted := false
    completedAt := none
    aiMetadata := none
    createdAt := now
    updatedAt := now
    syncStatus := SyncStatus.pending }

/-- `Todo::mark_complete` (models.rs). -/
def Todo.markComplete (t : Todo) (now : Int) : Todo :=
  { t with
    isCompleted := true
    completedAt := some now
    updatedAt := now
    syncStatus := SyncStatus.pending }

/-- `Todo::mark_incomplete` (models.rs). -/
def Todo.markIncomplete (t : Todo) (now : Int) : Todo :=
  { t with
    isCompleted := false
    completedAt := none
    updatedAt := now
    syncStatus := SyncStatus.pending }

/-- The `Category` entity (models.rs). -/
structure Category where
  id : Nat
  userId : Nat
  name : String
  color : Option String
  isAiGenerated : Bool
  syncStatus : SyncStatus
deriving DecidableEq, Repr

/-- Operation kind (`OperationType` in models.rs). -/
inductive OperationType where
  | create
  | update
  | delete
  | complete
  | uncomplete
  | stash
  | unstash
deriving DecidableEq, Repr

/-- Target entity kind (`EntityType` in models.rs). -/
inductive EntityType where
  | todo
  | category
deriving DecidableEq, Repr

/-- One row of the operation log (`Operation` in models.rs); the JSON
state snapshots are opaque strings here. -/
structure Operation where
  id : Nat
  operationType : OperationType
  entityType : EntityType
  entityId : Nat
  previousState : Option String
  newState : Option String
  createdAt : Int
  undone : Bool
deriving DecidableEq, Repr

/-- One row of the `stash` table (local.rs): the id of the stashed todo,
its serialized snapshot (serde round-trips, so kept as the value itself),
the stash timestamp and the optional message. -/
structure StashEntry where
  id : Nat
  todoJson : Todo
  stashedAt : Int
  message : Option String
deriving DecidableEq, Repr

/-! ### Local store (db/local.rs), todos table as a `List Todo` -/

/-- `LocalDb::get_todo`: `SELECT * FROM todos WHERE id = ?1` (id is the
primary key, so the first match is the row). -/
def getTodo (todos : List Todo) (id : Nat) : Option Todo :=
  todos.find? (fun t => t.id == id)

/-- `LocalDb::create_todo`: INSERT of the full row. -/
def createTodo (todos : List Todo) (t : Todo) : List Todo :=
  todos ++ [t]

/-- `LocalDb::update_todo`: `UPDATE todos SET user_id, category_id, title,
description, due_date, reminder_at, priority, is_completed, completed_at,
ai_metadata, updated_at, sync_status WHERE id = ?13`. The SET list does not
contain `created_at`, so the stored creation timestamp is kept. -/
def updateTodo (todos : List Todo) (t : Todo) : List Todo :=
  todos.map (fun row =>
    if row.id == t.id then { t with createdAt := row.createdAt } else row)

/-- `LocalDb::mark_synced`: `UPDATE todos SET sync_status = 'synced' WHERE id = ?1`. -/
def markSynced (todos : List Todo) (id : Nat) : List Todo :=
  todos.map (fun row =>
    if row.id == id then { row with syncStatus := SyncStatus.synced } else row)

/-- `LocalDb::delete_todo`: `DELETE FROM todos WHERE id = ?1`. -/
def deleteTodo (todos : List Todo) (id : Nat) : List Todo :=
  todos.filter (fun row => row.id != id)

/-- Insertion step for sorting ascending by an `Int` key (refines SQL
`ORDER BY key ASC`, whose order among equal keys is unspecified). -/
def insertAscBy {α : Type} (key : α → Int) (x : α) : List α → List α
  | [] => [x]
  | y :: ys => if key x ≤ key y then x :: y :: ys else y :: insertAscBy key x ys

/-- Sort ascending by an `Int` key. -/
def sortAscBy {α : Type} (key : α → Int) (l : List α) : List α :=
  l.foldr (insertAscBy key) []

/-- `LocalDb::list_pending_sync`:
`SELECT * FROM todos WHERE sync_status = 'pending' ORDER BY updated_at ASC`. -/
def listPendingSync (todos : List Todo) : List Todo :=
  sortAscBy Todo.updatedAt
    (todos.filter (fun t => decide (t.syncStatus = SyncStatus.pending)))

/-- `LocalDb::clear_category_from_todos`:
`UPDATE todos SET category_id = NULL WHERE category_id = ?`, returning
`rows_affected()` (the number of rows matched by the WHERE clause). -/
def clearCategoryFromTodos (todos : List Todo) (categoryId : Nat) :
    List Todo × Nat :=
  (todos.map (fun t =>
      if t.categoryId = some categoryId then { t with categoryId := none } else t),
   (todos.filter (fun t => decide (t.categoryId = some categoryId))).length)

/-- `LocalDb::delete_category`: `DELETE FROM categories WHERE id = ?`. -/
def deleteCategory (cats : List Category) (id : Nat) : List Category :=
  cats.filter (fun c => c.id != id)

/-! ### Operation log queries (db/local.rs) -/

/-- Combining step for taking the maximum-creation-timestamp operation. -/
def maxStep (o : Operation) : Option Operation → Option Operation
  | none => some o
  | some m => if m.createdAt < o.createdAt then some o else some m

/-- The row produced by `ORDER BY created_at DESC LIMIT 1` on a list of
operations: an operation with maximal creation timestamp (SQL leaves the
choice among ties unspecified; this refinement keeps the earliest such row
in table order). -/
def maxByCreated : List Operation → Option Operation
  | [] => none
  | o :: os => maxStep o (maxByCreated os)

/-- `LocalDb::get_last_undoable_operation`:
`SELECT * FROM operations WHERE undone = 0 ORDER BY created_at DESC LIMIT 1`. -/
def getLastUndoableOperation (ops : List Operation) : Option Operation :=
  maxByCreated (ops.filter (fun o => !o.undone))

/-- `LocalDb::get_last_redoable_operation`:
`SELECT * FROM operations WHERE undone = 1 ORDER BY created_at DESC LIMIT 1`. -/
def getLastRedoableOperation (ops : List Operation) : Option Operation :=
  maxByCreated (ops.filter (fun o => o.undone))

/-! ### Stash (db/local.rs) -/

/-- Errors surfaced by `stash_todo` (`anyhow::bail!` sites). -/
inductive StashError where
  | alreadyStashed
  | notFound
deriving DecidableEq, Repr

/-- `LocalDb::stash_todo`: fails if the id is already in the stash table or
the todo does not exist; otherwise inserts the serialized todo with the
current time and the message into `stash`, deletes the row from `todos`,
and returns the removed todo. -/
def stashTodo (todos : List Todo) (stash : List StashEntry) (todoId : Nat)
    (message : Option String) (now : Int) :
    Except StashError (Todo × List Todo × List StashEntry) :=
  if stash.any (fun e => e.id == todoId) then Except.error StashError.alreadyStashed
  else
    match getTodo todos todoId with
    | none => Except.error StashError.notFound
    | some todo =>
      Except.ok (todo, deleteTodo todos todoId,
        stash ++ [{ id := todoId, todoJson := todo, stashedAt := now, message := message }])

/-- The row produced by `SELECT * FROM stash ORDER BY stashed_at DESC LIMIT 1`:
an entry with maximal stash timestamp. -/
def latestStashed : List StashEntry → Option StashEntry
  | [] => none
  | e :: es =>
    match latestStashed es with
    | none => some e
    | some m => if e.stashedAt < m.stashedAt then some m else some e

/-- `LocalDb::stash_pop`: none if the stash is empty; otherwise removes the
most-recently-stashed entry, re-creates the todo in the main table, and
returns it. -/
def stashPop (todos : List Todo) (stash : List StashEntry) :
    Option (Todo × List Todo × List StashEntry) :=
  match latestStashed stash with
  | none => none
  | some e =>
    some (e.todoJson, createTodo todos e.todoJson,
      stash.filter (fun x => x.id != e.id))

/-! ### Remote store (db/remote.rs), todos table as a `List RemoteRow` -/

/-- One row of the remote `todos` table: the Todo columns (no `sync_status`)
plus the `deleted_at` tombstone. The INTEGER `priority` column round-trips
through `Priority::from_i32`, which is a bijection on {1,2,3} (see
`fromI32_toI32` below), so the row stores the `Priority` value. -/
structure RemoteRow where
  id : Nat
  userId : Option Nat
  categoryId : Option Nat
  title : String
  description : Option String
  dueDate : Option Int
  reminderAt : Option Int
  priority : Priority
  isCompleted : Bool
  completedAt : Option Int
  aiMetadata : Option String
  createdAt : Int
  updatedAt : Int
  deletedAt : Option Int
deriving DecidableEq, Repr

/-- The row inserted by `upsert_todo` when the id is not present
(`deleted_at` takes its NULL default). -/
def rowOfTodo (t : Todo) : RemoteRow :=
  { id := t.id
    userId := t.userId
    categoryId := t.categoryId
    title := t.title
    description := t.description
    dueDate := t.dueDate
    reminderAt := t.reminderAt
    priority := t.priority
    isCompleted := t.isCompleted
    completedAt := t.completedAt
    aiMetadata := t.aiMetadata
    createdAt := t.createdAt
    updatedAt := t.updatedAt
    deletedAt := none }

/-- The `DO UPDATE SET` list of `upsert_todo`: every column except `id`,
`created_at` and `deleted_at`. -/
def remoteUpdate (old : RemoteRow) (t : Todo) : RemoteRow :=
  { old with
    userId := t.userId
    categoryId := t.categoryId
    title := t.title
    description := t.description
    dueDate := t.dueDate
    reminderAt := t.reminderAt
    priority := t.priority
    isCompleted := t.isCompleted
    completedAt := t.completedAt
    aiMetadata := t.aiMetadata
    updatedAt := t.updatedAt }

/-- `RemoteDb::upsert_todo`: `INSERT ... ON CONFLICT (id) DO UPDATE SET ...
WHERE todos.updated_at < EXCLUDED.updated_at`. -/
def upsertTodo (r : List RemoteRow) (t : Todo) : List RemoteRow :=
  if r.any (fun row => row.id == t.id) then
    r.map (fun row =>
      if row.id == t.id then
        if row.updatedAt < t.updatedAt then remoteUpdate row t else row
      else row)
  else r ++ [rowOfTodo t]

/-- Lookup of the (unique) remote row with a given id. -/
def findRow (r : List RemoteRow) (id : Nat) : Option RemoteRow :=
  r.find? (fun row => row.id == id)

/-- The `Todo` built from a remote row by `get_todos_since`
(`sync_status: SyncStatus::Synced`). -/
def todoOfRow (row : RemoteRow) : Todo :=
  { id := row.id
    userId := row.userId
    categoryId := row.categoryId
    title := row.title
    description := row.description
    dueDate := row.dueDate
    reminderAt := row.reminderAt
    priority := row.priority
    isCompleted := row.isCompleted
    completedAt := row.completedAt
    aiMetadata := row.aiMetadata
    createdAt := row.createdAt
    updatedAt := row.updatedAt
    syncStatus := SyncStatus.synced }

/-- `RemoteDb::get_todos_since`: `SELECT ... FROM todos WHERE updated_at > $1
AND deleted_at IS NULL ORDER BY updated_at ASC`. -/
def getTodosSince (r : List RemoteRow) (since : Int) : List Todo :=
  (sortAscBy RemoteRow.updatedAt
    (r.filter (fun row =>
      decide (since < row.updatedAt) && decide (row.deletedAt = none)))).map todoOfRow

/-! ### Sync reconciler (sync.rs) -/

/-- Counts returned by `sync()` (`SyncResult` in sync.rs). -/
structure SyncResult where
  uploaded : Nat
  downloaded : Nat
  conflicts : Nat
deriving DecidableEq, Repr

/-- The error variants `sync()` can surface (config error when no remote is
set, database error from remote I/O). -/
inductive TodoeeError where
  | config (msg : String)
  | database (msg : String)
deriving DecidableEq, Repr

/-- The push loop of `SyncService::sync` (step 1): for each pending todo in
order, `remote.upsert_todo(&todo).await?` then `mark_synced` then
`uploaded += 1`. The `?` operator propagates the first upsert failure,
returning immediately; `fails` says which upserts the network rejects. -/
def pushPhase (fails : Todo → Bool) :
    List Todo → List Todo → List RemoteRow → Nat →
    List Todo × List RemoteRow × Nat × Option TodoeeError
  | [], todos, remote, uploaded => (todos, remote, uploaded, none)
  | t :: ts, todos, remote, uploaded =>
    if fails t then
      (todos, remote, uploaded, some (TodoeeError.database "upsert failed"))
    else
      pushPhase fails ts (markSynced todos t.id) (upsertTodo remote t) (uploaded + 1)

/-- The body of the pull loop of `SyncService::sync` (step 2) for one remote
todo, acting on the local table and the (downloaded, conflicts) counters. -/
def pullStep : List Todo × Nat × Nat → Todo → List Todo × Nat × Nat
  | (todos, downloaded, conflicts), remoteTodo =>
    match getTodo todos remoteTodo.id with
    | some localTodo =>
      if localTodo.updatedAt < remoteTodo.updatedAt then
        (updateTodo todos { remoteTodo with syncStatus := SyncStatus.synced },
         downloaded + 1, conflicts)
      else if localTodo.syncStatus = SyncStatus.pending then
        (todos, downloaded, conflicts + 1)
      else
        (todos, downloaded, conflicts)
    | none =>
      (createTodo todos { remoteTodo with syncStatus := SyncStatus.synced },
       downloaded + 1, conflicts)

/-- `SyncService::sync`: with no remote configured it returns the
`Config` error; otherwise push phase, then pull of
`get_todos_since(epoch)` (`get_last_sync_time` always returns the epoch).
Returns the final local table, the final remote table, and the
`Result<SyncResult>`. -/
def sync (fails : Todo → Bool) (remoteDb : Option (List RemoteRow))
    (todos : List Todo) :
    List Todo × Option (List RemoteRow) × Except TodoeeError SyncResult :=
  match remoteDb with
  | none =>
    (todos, none,
      Except.error (TodoeeError.config
        "Cloud sync not configured. Set NEON_DATABASE_URL environment variable."))
  | some remote =>
    match pushPhase fails (listPendingSync todos) todos remote 0 with
    | (todos₁, remote₁, _, some e) => (todos₁, some remote₁, Except.error e)
    | (todos₁, remote₁, uploaded, none) =>
      let changes := getTodosSince remote₁ 0
      let final := changes.foldl pullStep (todos₁, 0, 0)
      (final.1, some remote₁,
        Except.ok { uploaded := uploaded, downloaded := final.2.1, conflicts := final.2.2 })

/-- Marking a list of todos synced one after the other (the local-table
effect of a successful push prefix). -/
def markSyncedAll (todos : List Todo) (ts : List Todo) : List Todo :=
  ts.foldl (fun l t => markSynced l t.id) todos

/-- Upserting a list of todos one after the other (the remote-table effect
of a successful push prefix). -/
def upsertAll (r : List RemoteRow) (ts : List Todo) : List RemoteRow :=
  ts.foldl upsertTodo r

/-- The completion invariant of the spec: completion flag true iff the
completion timestamp is present. -/
def completionInv (t : Todo) : Prop :=
  t.isCompleted = true ↔ t.completedAt.isSome = true

instance (t : Todo) : Decidable (completionInv t) := by
  unfold completionInv
  infer_instance

/-! ### Concrete values for closed instances -/

/-- A concrete todo used in closed instances of the theorems. -/
def sampleTodo (id : Nat) (created updated : Int) (st : SyncStatus) : Todo :=
  { id := id
    userId := none
    categoryId := none
    title := "task"
    description := none
    dueDate := none
    reminderAt := none
    priority := Priority.medium
    isCompleted := false
    completedAt := none
    aiMetadata := none
    createdAt := created
    updatedAt := updated
    syncStatus := st }

/-- A concrete todo carrying a category reference. -/
def sampleTodoCat (id cid : Nat) : Todo :=
  { sampleTodo id 0 0 SyncStatus.pending with categoryId := some cid }

/-- A concrete operation-log row used in closed instances. -/
def sampleOp (id entityId : Nat) (ts : Int) (u : Bool) : Operation :=
  { id := id
    operationType := OperationType.update
    entityType := EntityType.todo
    entityId := entityId
    previousState := some "prev"
    newState := some "next"
    createdAt := ts
    undone := u }

/-- Operation log for the closed instance of the log queries: the latest
undoable and latest redoable entries target different entities. -/
def sampleOpsLog : List Operation :=
  [sampleOp 1 10 1 false, sampleOp 2 20 2 true, sampleOp 3 30 3 false]

/-- First pending todo of the push counterexample (its upsert fails). -/
def pushCexA : Todo :=
  sampleTodo 1 0 10 SyncStatus.pending

/-- Second pending todo of the push counterexample (its upsert would succeed). -/
def pushCexB : Todo :=
  sampleTodo 2 0 11 SyncStatus.pending

/-- Failure oracle for the push counterexample: only the upsert of todo 1 fails. -/
def pushCexFails (t : Todo) : Bool :=
  t.id == 1

/-- Local todo of the pull counterexample (creation timestamp 5). -/
def pullCexLocal : Todo :=
  sampleTodo 1 5 10 SyncStatus.synced

/-- Remote todo of the pull counterexample: same id, different creation
timestamp (7), strictly newer `updated_at`. -/
def pullCexRemote : Todo :=
  sampleTodo 1 7 20 SyncStatus.synced

/-- A concrete stored remote row for the upsert closed instance. -/
def upsertWRow : RemoteRow :=
  rowOfTodo (sampleTodo 1 0 5 SyncStatus.pending)

/-- A concrete incoming todo (same id, strictly newer) for the upsert closed
instance. -/
def upsertWTodo : Todo :=
  sampleTodo 1 0 9 SyncStatus.pending

/-- A concrete category used in closed instances. -/
def sampleCat (id : Nat) : Category :=
  { id := id
    userId := 0
    name := "work"
    color := none
    isAiGenerated := false
    syncStatus := SyncStatus.pending }

/-! ### Helper lemmas -/

/-- Priority round-trip: decoding the stored INTEGER value returns the
priority that was encoded, so storing the enum in `RemoteRow` is faithful. -/
theorem fromI32_toI32 (p : Priority) : Priority.fromI32 (Priority.toI32 p) = p := by
  cases p <;> rfl

theorem getTodo_id {todos : List Todo} {i : Nat} {t : Todo}
    (h : getTodo todos i = some t) : t.id = i := by
  have := List.find?_some h
  simpa using this

theorem getTodo_deleteTodo_self (todos : List Todo) (i : Nat) :
    getTodo (deleteTodo todos i) i = none := by
  unfold getTodo deleteTodo
  rw [List.find?_eq_none]
  intro x hx
  have h2 := (List.mem_filter.mp hx).2
  simp only [bne_iff_ne, ne_eq] at h2
  simp [h2]

theorem getTodo_append_none {l₁ : List Todo} (l₂ : List Todo) {i : Nat}
    (h : getTodo l₁ i = none) : getTodo (l₁ ++ l₂) i = getTodo l₂ i := by
  unfold getTodo at h ⊢
  induction l₁ with
  | nil => simp
  | cons x xs ih =>
    rw [List.cons_append]
    cases hx : (x.id == i) with
    | true =>
      simp only [List.find?, hx] at h
      exact Option.noConfusion h
    | false =>
      simp only [List.find?, hx] at h ⊢
      exact ih h

theorem maxByCreated_eq_none (l : List Operation) :
    maxByCreated l = none ↔ l = [] := by
  cases l with
  | nil => simp [maxByCreated]
  | cons o os =>
    constructor
    · intro h
      exfalso
      simp only [maxByCreated] at h
      cases hos : maxByCreated os with
      | none =>
        rw [hos] at h
        simp only [maxStep] at h
        exact Option.noConfusion h
      | some m =>
        rw [hos] at h
        simp only [maxStep] at h
        by_cases hlt : m.createdAt < o.createdAt
        · rw [if_pos hlt] at h; exact Option.noConfusion h
        · rw [if_neg hlt] at h; exact Option.noConfusion h
    · intro h; cases h

theorem maxByCreated_spec :
    ∀ (l : List Operation) (m : Operation), maxByCreated l = some m →
      m ∈ l ∧ ∀ o ∈ l, o.createdAt ≤ m.createdAt := by
  intro l
  induction l with
  | nil => intro m h; cases h
  | cons o os ih =>
    intro m h
    simp only [maxByCreated] at h
    cases hos : maxByCreated os with
    | none =>
      rw [hos] at h
      simp only [maxStep] at h
      injection h with h
      subst h
      have hnil : os = [] := (maxByCreated_eq_none os).mp hos
      subst hnil
      simp
    | some m' =>
      rw [hos] at h
      simp only [maxStep] at h
      obtain ⟨hm', hmax'⟩ := ih m' hos
      by_cases hlt : m'.createdAt < o.createdAt
      · rw [if_pos hlt] at h
        injection h with h
        subst h
        refine ⟨List.mem_cons_self _ _, ?_⟩
        intro o' ho'
        rcases List.mem_cons.mp ho' with h1 | h1
        · subst h1; exact le_refl _
        · exact le_trans (hmax' o' h1) (le_of_lt hlt)
      · rw [if_neg hlt] at h
        injection h with h
        subst h
        refine ⟨List.mem_cons_of_mem _ hm', ?_⟩
        intro o' ho'
        rcases List.mem_cons.mp ho' with h1 | h1
        · subst h1; omega
        · exact hmax' o' h1

theorem findRow_id {r : List RemoteRow} {i : Nat} {s : RemoteRow}
    (h : findRow r i = some s) : s.id = i := by
  have := List.find?_some h
  simpa using this

theorem findRow_mem {r : List RemoteRow} {i : Nat} {s : RemoteRow}
    (h : findRow r i = some s) : s ∈ r :=
  List.mem_of_find?_eq_some h

theorem findRow_unique {r : List RemoteRow} (hnd : (r.map RemoteRow.id).Nodup)
    {i : Nat} {s : RemoteRow} (hs : findRow r i = some s) :
    ∀ row ∈ r, row.id = i → row = s := by
  intro row hrow hid
  exact List.inj_on_of_nodup_map hnd hrow (findRow_mem hs)
    (hid.trans (findRow_id hs).symm)

theorem findRow_append_some {r₁ : List RemoteRow} {j : Nat} {s : RemoteRow}
    (h : findRow r₁ j = some s) (r₂ : List RemoteRow) :
    findRow (r₁ ++ r₂) j = some s := by
  unfold findRow at h ⊢
  induction r₁ with
  | nil => cases h
  | cons x xs ih =>
    rw [List.cons_append]
    cases hx : (x.id == j) with
    | true =>
      simp only [List.find?, hx] at h ⊢
      exact h
    | false =>
      simp only [List.find?, hx] at h ⊢
      exact ih h

theorem findRow_append_none {r₁ : List RemoteRow} {j : Nat}
    (h : findRow r₁ j = none) (r₂ : List RemoteRow) :
    findRow (r₁ ++ r₂) j = findRow r₂ j := by
  unfold findRow at h ⊢
  induction r₁ with
  | nil => simp
  | cons x xs ih =>
    rw [List.cons_append]
    cases hx : (x.id == j) with
    | true =>
      simp only [List.find?, hx] at h
      exact Option.noConfusion h
    | false =>
      simp only [List.find?, hx] at h ⊢
      exact ih h

theorem findRow_upsert_map (t : Todo) (j : Nat) :
    ∀ r : List RemoteRow,
      findRow (r.map (fun row =>
        if row.id == t.id then
          if row.updatedAt < t.updatedAt then remoteUpdate row t else row
        else row)) j =
      Option.map (fun row =>
        if row.id == t.id then
          if row.updatedAt < t.updatedAt then remoteUpdate row t else row
        else row) (findRow r j) := by
  intro r
  induction r with
  | nil => rfl
  | cons x xs ih =>
    have hfid : (if x.id == t.id then
        if x.updatedAt < t.updatedAt then remoteUpdate x t else x
      else x).id = x.id := by
      by_cases hxi : (x.id == t.id) = true
      · rw [if_pos hxi]
        by_cases hup : x.updatedAt < t.updatedAt
        · rw [if_pos hup]; rfl
        · rw [if_neg hup]
      · rw [if_neg hxi]
    unfold findRow at ih ⊢
    rw [List.map_cons]
    cases hx : (x.id == j) with
    | true =>
      simp only [List.find?, hfid, hx, Option.map_some']
    | false =>
      simp only [List.find?, hfid, hx]
      exact ih

theorem markSynced_syncedAt {todos : List Todo} {j : Nat} (i : Nat)
    (h : ∀ row ∈ todos, row.id = j → row.syncStatus = SyncStatus.synced) :
    ∀ row ∈ markSynced todos i, row.id = j → row.syncStatus = SyncStatus.synced := by
  intro row hrow hid
  obtain ⟨orig, horig, heq⟩ := List.mem_map.mp hrow
  by_cases hoi : (orig.id == i) = true
  · rw [if_pos hoi] at heq
    rw [← heq]
  · rw [if_neg hoi] at heq
    subst heq
    exact h orig horig hid

theorem markSynced_marks (todos : List Todo) (i : Nat) :
    ∀ row ∈ markSynced todos i, row.id = i → row.syncStatus = SyncStatus.synced := by
  intro row hrow hid
  obtain ⟨orig, horig, heq⟩ := List.mem_map.mp hrow
  by_cases hoi : (orig.id == i) = true
  · rw [if_pos hoi] at heq
    rw [← heq]
  · rw [if_neg hoi] at heq
    subst heq
    exact absurd (beq_iff_eq.mpr hid) hoi

theorem markSyncedAll_syncedAt {j : Nat} :
    ∀ (ts : List Todo) (todos : List Todo),
      (∀ row ∈ todos, row.id = j → row.syncStatus = SyncStatus.synced) →
      ∀ row ∈ markSyncedAll todos ts, row.id = j → row.syncStatus = SyncStatus.synced := by
  intro ts
  induction ts with
  | nil =>
    intro todos h
    simpa [markSyncedAll] using h
  | cons t ts ih =>
    intro todos h
    exact ih (markSynced todos t.id) (markSynced_syncedAt t.id h)

theorem markSyncedAll_marks :
    ∀ (ts : List Todo) (todos : List Todo) (t : Todo), t ∈ ts →
      ∀ row ∈ markSyncedAll todos ts, row.id = t.id →
        row.syncStatus = SyncStatus.synced := by
  intro ts
  induction ts with
  | nil =>
    intro todos t ht
    cases ht
  | cons u ts ih =>
    intro todos t ht
    rcases List.mem_cons.mp ht with h1 | h1
    · subst h1
      exact markSyncedAll_syncedAt ts (markSynced todos t.id)
        (markSynced_marks todos t.id)
    · exact ih (markSynced todos u.id) t h1

theorem push_aborts_equation (fails : Todo → Bool) (f : Todo) (ts₂ : List Todo) :
    ∀ (ts₁ todos : List Todo) (remote : List RemoteRow) (n : Nat),
      (∀ t ∈ ts₁, fails t = false) → fails f = true →
      pushPhase fails (ts₁ ++ f :: ts₂) todos remote n =
        (markSyncedAll todos ts₁, upsertAll remote ts₁, n + ts₁.length,
          some (TodoeeError.database "upsert failed")) := by
  intro ts₁
  induction ts₁ with
  | nil =>
    intro todos remote n h₁ h₂
    simp [pushPhase, h₂, markSyncedAll, upsertAll]
  | cons t ts ih =>
    intro todos remote n h₁ h₂
    have hft : fails t = false := h₁ t (List.mem_cons_self _ _)
    rw [List.cons_append]
    simp only [pushPhase, hft]
    rw [ih (markSynced todos t.id) (upsertTodo remote t) (n + 1)
      (fun u hu => h₁ u (List.mem_cons_of_mem _ hu)) h₂]
    have h3 : n + 1 + ts.length = n + (ts.length + 1) := by omega
    simp only [markSyncedAll, upsertAll, List.foldl_cons, List.length_cons, h3]
    rw [if_neg Bool.false_ne_true]

theorem latestStashed_append_max :
    ∀ (l : List StashEntry) (e : StashEntry),
      (∀ x ∈ l, x.stashedAt < e.stashedAt) →
      latestStashed (l ++ [e]) = some e := by
  intro l
  induction l with
  | nil =>
    intro e h
    rfl
  | cons x xs ih =>
    intro e h
    have hx : x.stashedAt < e.stashedAt := h x (List.mem_cons_self _ _)
    have ihx : latestStashed (xs ++ [e]) = some e :=
      ih e (fun y hy => h y (List.mem_cons_of_mem _ hy))
    rw [List.cons_append]
    simp only [latestStashed, ihx]
    rw [if_pos hx]

/-! ### Claim theorems -/

/-- C10. Decoding the stored priority and sync-state columns is total:
every INTEGER other than 1 or 3 decodes to Medium, and every sync-state
string other than "synced" or "conflict" decodes to Pending. Both
`Priority.fromI32` and `SyncStatus.fromString` are total Lean functions, so
neither column can be the source of a read error. -/
theorem decode_priority_syncStatus_total :
    (∀ v : Int, v ≠ 1 → v ≠ 3 → Priority.fromI32 v = Priority.medium) ∧
    (∀ s : String, s ≠ "synced" → s ≠ "conflict" →
      SyncStatus.fromString s = SyncStatus.pending) := by
  constructor
  · intro v h1 h3
    unfold Priority.fromI32
    rw [if_neg h1, if_neg h3]
  · intro s h1 h2
    unfold SyncStatus.fromString
    rw [if_neg h1, if_neg h2]

/-- Closed instance of `decode_priority_syncStatus_total` at value 2 and at
the string "pending". -/
theorem decode_priority_syncStatus_total_witness :
    Priority.fromI32 2 = Priority.medium ∧
    SyncStatus.fromString "pending" = SyncStatus.pending :=
  ⟨decode_priority_syncStatus_total.1 2 (by decide) (by decide),
   decode_priority_syncStatus_total.2 "pending" (by decide) (by decide)⟩

/-- C4, counterexample to the claim as stated: calling `sync()` with no
remote store configured does return an error (the `Config` error carrying
the setup instructions), so "no error is returned" is false already on the
empty local store. -/
theorem sync_without_remote_counterexample :
    (sync (fun _ => false) none []).2.2 =
      Except.error (TodoeeError.config
        "Cloud sync not configured. Set NEON_DATABASE_URL environment variable.") := rfl

/-- C4, amended: calling `sync()` when no remote store is configured leaves
the local store unchanged, performs no remote work, and returns the `Config`
error carrying the setup instructions (it does not silently succeed). -/
theorem sync_without_remote_spec (fails : Todo → Bool) (todos : List Todo) :
    sync fails none todos =
      (todos, none,
        Except.error (TodoeeError.config
          "Cloud sync not configured. Set NEON_DATABASE_URL environment variable.")) := rfl

/-- C2. Pull phase, conflict branch: for a remote entity that exists locally
with a strictly greater local `updated_at` and local sync-state Pending, the
pull step leaves the local table completely unchanged (no write occurs) and
increments the conflicts counter by exactly one. -/
theorem pull_conflict_keeps_local (todos : List Todo) (d c : Nat) (rt lt : Todo)
    (hget : getTodo todos rt.id = some lt)
    (hnewer : rt.updatedAt < lt.updatedAt)
    (hpending : lt.syncStatus = SyncStatus.pending) :
    pullStep (todos, d, c) rt = (todos, d, c + 1) := by
  simp only [pullStep, hget]
  rw [if_neg (not_lt.mpr (le_of_lt hnewer)), if_pos hpending]

/-- Closed instance of `pull_conflict_keeps_local`: a locally Pending todo
with `updated_at` 10 against a remote copy with `updated_at` 5. -/
theorem pull_conflict_keeps_local_witness :
    pullStep ([sampleTodo 1 0 10 SyncStatus.pending], 3, 4)
        (sampleTodo 1 0 5 SyncStatus.synced) =
      ([sampleTodo 1 0 10 SyncStatus.pending], 3, 4 + 1) :=
  pull_conflict_keeps_local _ 3 4 _ (sampleTodo 1 0 10 SyncStatus.pending)
    (by decide) (by decide) (by decide)

/-- C6. The operation-log queries: `get_last_undoable_operation` returns
none exactly when no operation has `undone = false`, and otherwise returns
an operation of the log with `undone = false` whose creation timestamp is
maximal among all such operations; symmetrically for
`get_last_redoable_operation` with `undone = true`. Neither query constrains
the target entity, so the result is chronological across all entities. -/
theorem last_undoable_redoable_spec (ops : List Operation) :
    (getLastUndoableOperation ops = none ↔ ∀ o ∈ ops, o.undone = true) ∧
    (∀ m, getLastUndoableOperation ops = some m →
      m ∈ ops ∧ m.undone = false ∧
      ∀ o ∈ ops, o.undone = false → o.createdAt ≤ m.createdAt) ∧
    (getLastRedoableOperation ops = none ↔ ∀ o ∈ ops, o.undone = false) ∧
    (∀ m, getLastRedoableOperation ops = some m →
      m ∈ ops ∧ m.undone = true ∧
      ∀ o ∈ ops, o.undone = true → o.createdAt ≤ m.createdAt) := by
  refine ⟨?_, ?_, ?_, ?_⟩
  · unfold getLastUndoableOperation
    rw [maxByCreated_eq_none, List.filter_eq_nil_iff]
    constructor
    · intro h o ho
      have := h o ho
      simpa using this
    · intro h o ho
      simp [h o ho]
  · intro m hm
    unfold getLastUndoableOperation at hm
    obtain ⟨hmem, hmax⟩ := maxByCreated_spec _ m hm
    have hmem' := List.mem_filter.mp hmem
    refine ⟨hmem'.1, by simpa using hmem'.2, ?_⟩
    intro o ho hu
    exact hmax o (List.mem_filter.mpr ⟨ho, by simp [hu]⟩)
  · unfold getLastRedoableOperation
    rw [maxByCreated_eq_none, List.filter_eq_nil_iff]
    constructor
    · intro h o ho
      have := h o ho
      simpa using this
    · intro h o ho
      simp [h o ho]
  · intro m hm
    unfold getLastRedoableOperation at hm
    obtain ⟨hmem, hmax⟩ := maxByCreated_spec _ m hm
    have hmem' := List.mem_filter.mp hmem
    refine ⟨hmem'.1, hmem'.2, ?_⟩
    intro o ho hu
    exact hmax o (List.mem_filter.mpr ⟨ho, hu⟩)

/-- C5. `upsert_todo` is a timestamp-guarded compare-and-swap: when the id
already exists, the write is applied exactly when the incoming `updated_at`
is strictly greater than the stored one (on equal or smaller the whole
table is unchanged); when the id does not exist, the row is inserted; rows
with other ids are never touched. -/
theorem upsert_todo_timestamp_guard (r : List RemoteRow) (t : Todo)
    (hnd : (r.map RemoteRow.id).Nodup) :
    (∀ s, findRow r t.id = some s →
      (s.updatedAt < t.updatedAt →
        findRow (upsertTodo r t) t.id = some (remoteUpdate s t)) ∧
      (t.updatedAt ≤ s.updatedAt → upsertTodo r t = r)) ∧
    (findRow r t.id = none → upsertTodo r t = r ++ [rowOfTodo t]) ∧
    (∀ j, j ≠ t.id → findRow (upsertTodo r t) j = findRow r j) := by
  refine ⟨?_, ?_, ?_⟩
  · intro s hs
    have hany : (r.any (fun row => row.id == t.id)) = true :=
      List.any_eq_true.mpr ⟨s, findRow_mem hs, by simp [findRow_id hs]⟩
    constructor
    · intro hlt
      unfold upsertTodo
      rw [if_pos hany, findRow_upsert_map, hs]
      have hsid : (s.id == t.id) = true := by simp [findRow_id hs]
      simp only [Option.map_some', hsid, if_true]
      rw [if_pos hlt]
    · intro hle
      unfold upsertTodo
      rw [if_pos hany]
      have : ∀ row ∈ r,
          (if row.id == t.id then
            if row.updatedAt < t.updatedAt then remoteUpdate row t else row
          else row) = row := by
        intro row hrow
        by_cases hri : (row.id == t.id) = true
        · rw [if_pos hri]
          have hrs : row = s := findRow_unique hnd hs row hrow (by simpa using hri)
          rw [if_neg]
          rw [hrs]
          exact not_lt.mpr hle
        · rw [if_neg hri]
      calc r.map (fun row =>
            if row.id == t.id then
              if row.updatedAt < t.updatedAt then remoteUpdate row t else row
            else row)
          = r.map id := List.map_congr_left this
        _ = r := List.map_id r
  · intro hnone
    unfold upsertTodo
    rw [if_neg]
    intro hany
    obtain ⟨x, hx, hxid⟩ := List.any_eq_true.mp hany
    have := List.find?_eq_none.mp hnone x hx
    exact this hxid
  · intro j hj
    by_cases hany : (r.any (fun row => row.id == t.id)) = true
    · unfold upsertTodo
      rw [if_pos hany, findRow_upsert_map]
      cases hfr : findRow r j with
      | none => rfl
      | some row =>
        have hrid : row.id = j := findRow_id hfr
        have hne : ¬((row.id == t.id) = true) := by
          rw [hrid]
          simp only [beq_iff_eq]
          exact hj
        simp only [Option.map_some']
        rw [if_neg hne]
    · unfold upsertTodo
      rw [if_neg hany]
      cases hfr : findRow r j with
      | none =>
        rw [findRow_append_none hfr]
        unfold findRow rowOfTodo
        simp only [List.find?]
        have hne : (t.id == j) = false := by
          simp only [beq_eq_false_iff_ne, ne_eq]
          exact fun h => hj h.symm
        simp [hne]
      | some row =>
        rw [findRow_append_some hfr]

/-- Closed instance of `upsert_todo_timestamp_guard`: a one-row remote table
with `updated_at` 5 receives an upsert with `updated_at` 9, and the guarded
update is applied. -/
theorem upsert_todo_timestamp_guard_witness :
    findRow (upsertTodo [upsertWRow] upsertWTodo) upsertWTodo.id =
      some (remoteUpdate upsertWRow upsertWTodo) :=
  ((upsert_todo_timestamp_guard [upsertWRow] upsertWTodo (by decide)).1
    upsertWRow (by decide)).1 (by decide)

/-- C3, counterexample to the claim as stated: the pull update branch does
not overwrite every local field with the remote values — the `UPDATE` SET
list omits `created_at`. With a local creation timestamp 5 and a remote one
7 (same id, remote strictly newer), the resulting local row differs from
the remote entity marked Synced. -/
theorem pull_overwrite_counterexample :
    getTodo [pullCexLocal] pullCexRemote.id = some pullCexLocal ∧
    pullCexLocal.updatedAt < pullCexRemote.updatedAt ∧
    (pullStep ([pullCexLocal], 0, 0) pullCexRemote).1 ≠
      [{ pullCexRemote with syncStatus := SyncStatus.synced }] := by
  decide

/-- C3, amended: during the pull phase, a remote entity absent locally is
inserted marked Synced and counted as downloaded; a remote entity present
locally with strictly newer remote `updated_at` has all its fields except
the creation timestamp overwritten with the remote values, is marked
Synced (the local `created_at` is retained), and is counted as
downloaded. -/
theorem pull_download_spec (todos : List Todo) (d c : Nat) (rt : Todo) :
    (getTodo todos rt.id = none →
      pullStep (todos, d, c) rt =
        (todos ++ [{ rt with syncStatus := SyncStatus.synced }], d + 1, c)) ∧
    (∀ lt, getTodo todos rt.id = some lt → lt.updatedAt < rt.updatedAt →
      pullStep (todos, d, c) rt =
        (updateTodo todos { rt with syncStatus := SyncStatus.synced }, d + 1, c) ∧
      ∀ row ∈ todos, row.id = rt.id →
        { rt with syncStatus := SyncStatus.synced, createdAt := row.createdAt } ∈
          updateTodo todos { rt with syncStatus := SyncStatus.synced }) := by
  constructor
  · intro h
    simp only [pullStep, h, createTodo]
  · intro lt hget hlt
    constructor
    · simp only [pullStep, hget]
      rw [if_pos hlt]
    · intro row hrow hid
      unfold updateTodo
      refine List.mem_map.mpr ⟨row, hrow, ?_⟩
      have hbeq : (row.id == ({ rt with syncStatus := SyncStatus.synced } : Todo).id) = true := by
        simp [hid]
      rw [if_pos hbeq]

/-- Closed instance of `pull_download_spec`: both branches, on the concrete
pull todos (insert into an empty table; guarded update of a stale local
copy). -/
theorem pull_download_spec_witness :
    pullStep ([], 0, 0) pullCexRemote =
      ([] ++ [{ pullCexRemote with syncStatus := SyncStatus.synced }], 0 + 1, 0) ∧
    pullStep ([pullCexLocal], 0, 0) pullCexRemote =
      (updateTodo [pullCexLocal] { pullCexRemote with syncStatus := SyncStatus.synced },
       0 + 1, 0) :=
  ⟨(pull_download_spec [] 0 0 pullCexRemote).1 (by decide),
   ((pull_download_spec [pullCexLocal] 0 0 pullCexRemote).2 pullCexLocal
     (by decide) (by decide)).1⟩

/-- Closed instance of `last_undoable_redoable_spec` on a three-entry log
whose latest undoable entry (timestamp 3, entity 30) targets a different
entity than the latest redoable entry (timestamp 2, entity 20). -/
theorem last_undoable_redoable_spec_witness :
    (sampleOp 3 30 3 false ∈ sampleOpsLog ∧ (sampleOp 3 30 3 false).undone = false ∧
      ∀ o ∈ sampleOpsLog, o.undone = false →
        o.createdAt ≤ (sampleOp 3 30 3 false).createdAt) ∧
    (sampleOp 2 20 2 true ∈ sampleOpsLog ∧ (sampleOp 2 20 2 true).undone = true ∧
      ∀ o ∈ sampleOpsLog, o.undone = true →
        o.createdAt ≤ (sampleOp 2 20 2 true).createdAt) :=
  ⟨(last_undoable_redoable_spec sampleOpsLog).2.1 _ (by decide),
   (last_undoable_redoable_spec sampleOpsLog).2.2.2 _ (by decide)⟩

/-- C1, counterexample to the claim as stated: in the push loop the `?` on
`upsert_todo` aborts the whole loop at the first failure, so a later pending
entity whose upsert would succeed is NOT pushed and NOT marked Synced. With
pending todos A (id 1, upsert fails) and B (id 2, upsert would succeed), B is
still Pending after the push and the error is surfaced. -/
theorem push_continue_on_error_counterexample :
    pushCexFails pushCexA = true ∧
    pushCexFails pushCexB = false ∧
    (pushPhase pushCexFails [pushCexA, pushCexB] [pushCexA, pushCexB] [] 0).1 =
      [pushCexA, pushCexB] ∧
    getTodo (pushPhase pushCexFails [pushCexA, pushCexB] [pushCexA, pushCexB] [] 0).1
        pushCexB.id = some pushCexB ∧
    pushCexB.syncStatus ≠ SyncStatus.synced ∧
    (pushPhase pushCexFails [pushCexA, pushCexB] [pushCexA, pushCexB] [] 0).2.2.2 =
      some (TodoeeError.database "upsert failed") := by
  decide

/-- C1, amended: the push phase processes pending entities in order only up
to the first failing upsert. Every entity strictly before the failure is
upserted to the remote and marked Synced locally (and remains Synced at the
end of the push); the failing entity and all later ones are left untouched;
the error is returned. -/
theorem push_failure_aborts_remaining (fails : Todo → Bool)
    (ts₁ : List Todo) (f : Todo) (ts₂ todos : List Todo)
    (remote : List RemoteRow) (n : Nat)
    (h₁ : ∀ t ∈ ts₁, fails t = false) (h₂ : fails f = true) :
    pushPhase fails (ts₁ ++ f :: ts₂) todos remote n =
      (markSyncedAll todos ts₁, upsertAll remote ts₁, n + ts₁.length,
        some (TodoeeError.database "upsert failed")) ∧
    ∀ t ∈ ts₁, ∀ row ∈ markSyncedAll todos ts₁, row.id = t.id →
      row.syncStatus = SyncStatus.synced :=
  ⟨push_aborts_equation fails f ts₂ ts₁ todos remote n h₁ h₂,
   fun t ht row hrow hid => markSyncedAll_marks ts₁ todos t ht row hrow hid⟩

/-- Closed instance of `push_failure_aborts_remaining`: pending order
B then A, where A's upsert fails; B is pushed and marked Synced, the loop
then aborts with the error. -/
theorem push_failure_aborts_remaining_witness :
    pushPhase pushCexFails ([pushCexB] ++ pushCexA :: []) [pushCexA, pushCexB] [] 0 =
      (markSyncedAll [pushCexA, pushCexB] [pushCexB], upsertAll [] [pushCexB],
        0 + [pushCexB].length, some (TodoeeError.database "upsert failed")) ∧
    ∀ t ∈ [pushCexB], ∀ row ∈ markSyncedAll [pushCexA, pushCexB] [pushCexB],
      row.id = t.id → row.syncStatus = SyncStatus.synced :=
  push_failure_aborts_remaining pushCexFails [pushCexB] pushCexA []
    [pushCexA, pushCexB] [] 0 (by decide) (by decide)

/-- C7. Stash round-trip: for a task `t` present in the main table and not
already stashed, `stash_todo` removes it from the main table (mid-stash the
main table does not contain its id) and a following `stash_pop` on the
otherwise-untouched store returns a task deep-equal to `t`, removes the
entry from the stash, and reinserts `t` into the main table. The
`hmono` hypothesis is the wall-clock monotonicity of earlier stash
timestamps. -/
theorem stash_push_pop_roundtrip (todos : List Todo) (stash : List StashEntry)
    (tid : Nat) (t : Todo) (msg : Option String) (now : Int)
    (hget : getTodo todos tid = some t)
    (hns : ∀ e ∈ stash, e.id ≠ tid)
    (hmono : ∀ e ∈ stash, e.stashedAt < now) :
    stashTodo todos stash tid msg now =
      Except.ok (t, deleteTodo todos tid,
        stash ++ [{ id := tid, todoJson := t, stashedAt := now, message := msg }]) ∧
    getTodo (deleteTodo todos tid) tid = none ∧
    stashPop (deleteTodo todos tid)
        (stash ++ [{ id := tid, todoJson := t, stashedAt := now, message := msg }]) =
      some (t, deleteTodo todos tid ++ [t], stash) ∧
    getTodo (deleteTodo todos tid ++ [t]) tid = some t := by
  have hanyf : ¬((stash.any (fun e => e.id == tid)) = true) := by
    intro hany
    obtain ⟨x, hx, hbeq⟩ := List.any_eq_true.mp hany
    exact hns x hx (by simpa using hbeq)
  refine ⟨?_, ?_, ?_, ?_⟩
  · unfold stashTodo
    rw [if_neg hanyf, hget]
  · exact getTodo_deleteTodo_self todos tid
  · unfold stashPop
    rw [latestStashed_append_max stash _ hmono]
    show some (t, createTodo (deleteTodo todos tid) t,
        (stash ++ [({ id := tid, todoJson := t, stashedAt := now, message := msg } : StashEntry)]).filter
          (fun x =>
            x.id !=
              ({ id := tid, todoJson := t, stashedAt := now, message := msg } : StashEntry).id)) =
      some (t, deleteTodo todos tid ++ [t], stash)
    have h1 : stash.filter (fun x =>
        x.id != ({ id := tid, todoJson := t, stashedAt := now, message := msg } : StashEntry).id) =
        stash := by
      apply List.filter_eq_self.mpr
      intro x hx
      simpa using hns x hx
    have h2 : ([({ id := tid, todoJson := t, stashedAt := now, message := msg } : StashEntry)]).filter
        (fun x =>
          x.id != ({ id := tid, todoJson := t, stashedAt := now, message := msg } : StashEntry).id) =
        [] := by
      simp
    rw [List.filter_append, h1, h2, List.append_nil]
    rfl
  · rw [getTodo_append_none [t] (getTodo_deleteTodo_self todos tid)]
    have htid : t.id = tid := getTodo_id hget
    unfold getTodo
    simp [List.find?, htid]

/-- Closed instance of `stash_push_pop_roundtrip`: a two-task table, a
nonempty stash with an older entry, push of task 1 at time 7 then pop. -/
theorem stash_push_pop_roundtrip_witness :
    stashTodo [sampleTodo 1 0 10 SyncStatus.pending, sampleTodo 2 0 11 SyncStatus.pending]
        [{ id := 5, todoJson := sampleTodo 5 0 1 SyncStatus.pending, stashedAt := 3,
           message := none }] 1 (some "wip") 7 =
      Except.ok (sampleTodo 1 0 10 SyncStatus.pending,
        deleteTodo [sampleTodo 1 0 10 SyncStatus.pending,
          sampleTodo 2 0 11 SyncStatus.pending] 1,
        [{ id := 5, todoJson := sampleTodo 5 0 1 SyncStatus.pending, stashedAt := 3,
           message := none }] ++
          [{ id := 1, todoJson := sampleTodo 1 0 10 SyncStatus.pending, stashedAt := 7,
             message := some "wip" }]) ∧
    getTodo (deleteTodo [sampleTodo 1 0 10 SyncStatus.pending,
        sampleTodo 2 0 11 SyncStatus.pending] 1) 1 = none ∧
    stashPop (deleteTodo [sampleTodo 1 0 10 SyncStatus.pending,
          sampleTodo 2 0 11 SyncStatus.pending] 1)
        ([{ id := 5, todoJson := sampleTodo 5 0 1 SyncStatus.pending, stashedAt := 3,
            message := none }] ++
          [{ id := 1, todoJson := sampleTodo 1 0 10 SyncStatus.pending, stashedAt := 7,
             message := some "wip" }]) =
      some (sampleTodo 1 0 10 SyncStatus.pending,
        deleteTodo [sampleTodo 1 0 10 SyncStatus.pending,
          sampleTodo 2 0 11 SyncStatus.pending] 1 ++ [sampleTodo 1 0 10 SyncStatus.pending],
        [{ id := 5, todoJson := sampleTodo 5 0 1 SyncStatus.pending, stashedAt := 3,
           message := none }]) ∧
    getTodo (deleteTodo [sampleTodo 1 0 10 SyncStatus.pending,
        sampleTodo 2 0 11 SyncStatus.pending] 1 ++
          [sampleTodo 1 0 10 SyncStatus.pending]) 1 =
      some (sampleTodo 1 0 10 SyncStatus.pending) :=
  stash_push_pop_roundtrip _ _ 1 (sampleTodo 1 0 10 SyncStatus.pending) (some "wip") 7
    (by decide) (by decide) (by decide)

/-- C8. The completion invariant (flag true iff timestamp present) holds
for every freshly created task, is established unconditionally by
`mark_complete` and `mark_incomplete`, and is preserved by the sync pull
step: if every local task and the remote entity satisfy it, so does every
task in the resulting local table. -/
theorem completion_invariant_preserved :
    (∀ (title : String) (uid : Option Nat) (id : Nat) (now : Int),
      completionInv (Todo.new title uid id now)) ∧
    (∀ (t : Todo) (now : Int), completionInv (t.markComplete now)) ∧
    (∀ (t : Todo) (now : Int), completionInv (t.markIncomplete now)) ∧
    (∀ (todos : List Todo) (d c : Nat) (rt : Todo),
      (∀ t ∈ todos, completionInv t) → completionInv rt →
      ∀ t ∈ (pullStep (todos, d, c) rt).1, completionInv t) := by
  refine ⟨?_, ?_, ?_, ?_⟩
  · intro title uid id now
    simp [completionInv, Todo.new]
  · intro t now
    simp [completionInv, Todo.markComplete]
  · intro t now
    simp [completionInv, Todo.markIncomplete]
  · intro todos d c rt hall hrt t ht
    rcases hg : getTodo todos rt.id with _ | lt
    · have h1 : (pullStep (todos, d, c) rt).1 =
          createTodo todos { rt with syncStatus := SyncStatus.synced } := by
        simp [pullStep, hg]
      rw [h1, createTodo] at ht
      rcases List.mem_append.mp ht with hm | hm
      · exact hall t hm
      · rcases List.mem_singleton.mp hm with rfl
        exact hrt
    · by_cases hlt : lt.updatedAt < rt.updatedAt
      · have h1 : (pullStep (todos, d, c) rt).1 =
            updateTodo todos { rt with syncStatus := SyncStatus.synced } := by
          simp only [pullStep, hg]
          rw [if_pos hlt]
        rw [h1] at ht
        obtain ⟨orig, horig, heq⟩ := List.mem_map.mp ht
        by_cases hoi :
            (orig.id == ({ rt with syncStatus := SyncStatus.synced } : Todo).id) = true
        · rw [if_pos hoi] at heq
          rw [← heq]
          exact hrt
        · rw [if_neg hoi] at heq
          subst heq
          exact hall orig horig
      · have h1 : (pullStep (todos, d, c) rt).1 = todos := by
          simp only [pullStep, hg]
          rw [if_neg hlt]
          by_cases hp : lt.syncStatus = SyncStatus.pending
          · rw [if_pos hp]
          · rw [if_neg hp]
        rw [h1] at ht
        exact hall t ht

/-- Closed instance of `completion_invariant_preserved`: `mark_complete` on
a concrete task, and the pull step downloading a concrete invariant-holding
remote entity into the empty table. -/
theorem completion_invariant_preserved_witness :
    completionInv (Todo.markComplete (sampleTodo 1 0 5 SyncStatus.pending) 9) ∧
    completionInv { sampleTodo 1 0 5 SyncStatus.synced with syncStatus := SyncStatus.synced } :=
  ⟨completion_invariant_preserved.2.1 (sampleTodo 1 0 5 SyncStatus.pending) 9,
   completion_invariant_preserved.2.2.2 [] 0 0 (sampleTodo 1 0 5 SyncStatus.synced)
     (by intro t ht; cases ht) (by decide) _ (by decide)⟩

/-- C9. `clear_category_from_todos` clears the category reference of every
task referencing the given category, leaves every other task in place and
unchanged, returns exactly the number of tasks affected, and — invoked
before `delete_category` on a store with referential integrity — leaves no
task referencing a nonexistent category after the deletion. -/
theorem clear_category_references_spec (todos : List Todo) (cats : List Category)
    (cid : Nat)
    (hint : ∀ t ∈ todos, ∀ c, t.categoryId = some c → ∃ cat ∈ cats, cat.id = c) :
    (∀ t ∈ todos, t.categoryId = some cid →
      { t with categoryId := none } ∈ (clearCategoryFromTodos todos cid).1) ∧
    (∀ t ∈ todos, t.categoryId ≠ some cid →
      t ∈ (clearCategoryFromTodos todos cid).1) ∧
    (∀ t ∈ (clearCategoryFromTodos todos cid).1, t.categoryId ≠ some cid) ∧
    ((clearCategoryFromTodos todos cid).2 =
      todos.countP (fun t => decide (t.categoryId = some cid))) ∧
    ((clearCategoryFromTodos todos cid).1.length = todos.length) ∧
    (∀ t ∈ (clearCategoryFromTodos todos cid).1, ∀ c, t.categoryId = some c →
      ∃ cat ∈ deleteCategory cats cid, cat.id = c) := by
  refine ⟨?_, ?_, ?_, ?_, ?_, ?_⟩
  · intro t ht hc
    refine List.mem_map.mpr ⟨t, ht, ?_⟩
    rw [if_pos hc]
  · intro t ht hc
    refine List.mem_map.mpr ⟨t, ht, ?_⟩
    rw [if_neg hc]
  · intro t ht
    obtain ⟨orig, horig, heq⟩ := List.mem_map.mp ht
    by_cases hc : orig.categoryId = some cid
    · rw [if_pos hc] at heq
      rw [← heq]
      simp
    · rw [if_neg hc] at heq
      rw [← heq]
      exact hc
  · rw [List.countP_eq_length_filter]
    rfl
  · simp [clearCategoryFromTodos]
  · intro t ht c hc
    obtain ⟨orig, horig, heq⟩ := List.mem_map.mp ht
    by_cases hoc : orig.categoryId = some cid
    · rw [if_pos hoc] at heq
      rw [← heq] at hc
      simp at hc
    · rw [if_neg hoc] at heq
      rw [← heq] at hc
      obtain ⟨cat, hcat, hcid⟩ := hint orig horig c hc
      have hne : c ≠ cid := fun h => hoc (h ▸ hc)
      refine ⟨cat, ?_, hcid⟩
      unfold deleteCategory
      apply List.mem_filter.mpr
      refine ⟨hcat, ?_⟩
      simp only [bne_iff_ne, ne_eq, hcid]
      exact hne

/-- Referential integrity of the concrete two-task, two-category store. -/
theorem sampleHint :
    ∀ t ∈ [sampleTodoCat 1 7, sampleTodoCat 2 8], ∀ c : Nat,
      t.categoryId = some c → ∃ cat ∈ [sampleCat 7, sampleCat 8], cat.id = c := by
  intro t ht c hc
  rcases List.mem_cons.mp ht with h | h
  · subst h
    have h7 : (7 : Nat) = c := by
      simpa [sampleTodoCat, sampleTodo] using hc
    subst h7
    exact ⟨sampleCat 7, List.mem_cons_self _ _, rfl⟩
  · rcases List.mem_cons.mp h with h2 | h2
    · subst h2
      have h8 : (8 : Nat) = c := by
        simpa [sampleTodoCat, sampleTodo] using hc
      subst h8
      exact ⟨sampleCat 8, List.mem_cons_of_mem _ (List.mem_cons_self _ _), rfl⟩
    · cases h2

/-- Closed instance of `clear_category_references_spec`: two tasks
referencing categories 7 and 8; clearing category 7 blanks the first task's
reference, affects exactly one row, and after deleting category 7 no task
references a missing category. -/
theorem clear_category_references_spec_witness :
    ({ sampleTodoCat 1 7 with categoryId := none } ∈
      (clearCategoryFromTodos [sampleTodoCat 1 7, sampleTodoCat 2 8] 7).1) ∧
    ((clearCategoryFromTodos [sampleTodoCat 1 7, sampleTodoCat 2 8] 7).2 =
      ([sampleTodoCat 1 7, sampleTodoCat 2 8]).countP
        (fun t => decide (t.categoryId = some 7))) :=
  ⟨(clear_category_references_spec [sampleTodoCat 1 7, sampleTodoCat 2 8]
      [sampleCat 7, sampleCat 8] 7 sampleHint).1 (sampleTodoCat 1 7)
      (by decide) (by decide),
   (clear_category_references_spec [sampleTodoCat 1 7, sampleTodoCat 2 8]
      [sampleCat 7, sampleCat 8] 7 sampleHint).2.2.2.1⟩

end Todoee
